import Mathlib

/-!
# Shallow embedding of the bank management application (src/app.py)

The source program is a single-file Python banking application backed by a
SQLite database with two tables:

* `clients (id INTEGER PRIMARY KEY, first_name TEXT NOT NULL, balance REAL NOT NULL, occupation TEXT)`
* `movements (id INTEGER PRIMARY KEY AUTOINCREMENT, client_id INTEGER NOT NULL, action TEXT NOT NULL, amount REAL NOT NULL)`

We embed the database as explicit lists (rows in insertion order, which is the
order `SELECT` without `ORDER BY` returns for these tables) and each `Bank`
method as a pure state-passing function.

Modelling choices, each justified against the source:

* Monetary amounts are modelled as `ℤ` (exact signed arithmetic).  The source
  uses Python floats; every property claimed about the program concerns only
  signs, ordering and sums of amounts, which are carrier-independent, and the
  spec itself prescribes integer minor units over binary floating point.
  IEEE rounding behaviour is outside the embedding.
* The `movements` table's `action` column holds one of the four literal
  strings `'Withdraw'`, `'Deposit'`, `'Transfer Out'`, `'Transfer In'`; we
  embed it as the enumeration `MvKind`.
* A `Client` object in the source is a transient in-memory snapshot built by
  `Bank.find_client`; its `movements` attribute starts as the empty list
  (`Client.__init__`) and only accumulates entries appended by operations
  performed on that snapshot.  The source appends formatted strings such as
  `"Withdrawn: -{amount}"`; we embed each in-memory entry as the
  `(kind, signed amount)` pair the string renders.
* `UPDATE clients SET balance=? WHERE id=?` updates every row matching the
  id (embedded as `List.map` over rows), and `SELECT * FROM clients WHERE
  id=?` + `fetchone` returns the first matching row (embedded as
  `List.find?`).
* A plain `INTEGER PRIMARY KEY` insert without an explicit id makes SQLite
  assign one more than the largest rowid currently in the table (and hence
  reuses the largest id after it is deleted); `create_account` embeds this as
  `nextClientId`.
* Logging and `print` calls have no effect on the database or the snapshot
  and are not modelled; the user-visible outcome of an operation (success,
  "Insufficient funds.", "Client to transfer to not found.") is embedded as
  an explicit result value.
-/

/-- The `action` column of the `movements` table: one of the four literal
strings `'Withdraw'`, `'Deposit'`, `'Transfer Out'`, `'Transfer In'`. -/
inductive MvKind
  | withdraw
  | deposit
  | transferOut
  | transferIn
deriving DecidableEq, Repr

/-- A row of the `clients` table. -/
structure Account where
  id : Nat
  first_name : String
  balance : ℤ
  occupation : Option String
deriving DecidableEq, Repr

/-- A row of the `movements` table (the AUTOINCREMENT id is represented by
the row's position in the insertion-ordered list). -/
structure Movement where
  client_id : Nat
  action : MvKind
  amount : ℤ
deriving DecidableEq, Repr

/-- The persistent database state: both tables in insertion order. -/
structure DB where
  clients : List Account
  movements : List Movement
deriving DecidableEq, Repr

/-- The empty database produced by `initialize_database` on a fresh file. -/
def DB.empty : DB := ⟨[], []⟩

/-- The transient in-memory `Client` object (`Client.__init__`): a snapshot of
one `clients` row plus a session-local `movements` list that starts empty. -/
structure Client where
  id : Nat
  first_name : String
  balance : ℤ
  occupation : Option String
  movements : List (MvKind × ℤ)
deriving DecidableEq, Repr

/-- SQLite rowid assignment for `INSERT INTO clients` without an explicit id:
one more than the largest id currently in the table. -/
def nextClientId (db : DB) : Nat :=
  (db.clients.map (fun a => a.id)).foldr max 0 + 1

/-- `Bank.create_account`: inserts a new `clients` row with balance 0. -/
def create_account (db : DB) (first_name : String) (occupation : Option String) : DB :=
  { db with clients := db.clients ++ [⟨nextClientId db, first_name, 0, occupation⟩] }

/-- `Bank.close_account`: deletes the `clients` row and all `movements` rows
with the given client id. -/
def close_account (db : DB) (client_id : Nat) : DB :=
  { clients := db.clients.filter (fun a => !(a.id == client_id)),
    movements := db.movements.filter (fun m => !(m.client_id == client_id)) }

/-- `Bank.find_client`: `SELECT * FROM clients WHERE id=?` + `fetchone`,
wrapped in a fresh `Client` object whose in-memory `movements` list is empty. -/
def find_client (db : DB) (client_id : Nat) : Option Client :=
  match db.clients.find? (fun a => a.id == client_id) with
  | some a => some ⟨a.id, a.first_name, a.balance, a.occupation, []⟩
  | none => none

/-- `UPDATE clients SET balance=? WHERE id=?`: sets the balance of every row
whose id matches. -/
def updateBalance (clients : List Account) (client_id : Nat) (b : ℤ) : List Account :=
  clients.map (fun a => if a.id == client_id then { a with balance := b } else a)

/-- Outcome of `Bank.client_withdraw` (success, or the printed
"Insufficient funds."). -/
inductive WithdrawResult
  | ok
  | insufficientFunds
deriving DecidableEq, Repr

/-- `Bank.client_withdraw`: if `amount <= client.balance`, decrement the
snapshot balance, append `"Withdrawn: -{amount}"` to the snapshot, persist the
new balance and insert a `'Withdraw'` movement with amount `-amount`;
otherwise print "Insufficient funds." and change nothing.  Note the source
performs no `amount > 0` check. -/
def client_withdraw (db : DB) (client : Client) (amount : ℤ) :
    WithdrawResult × DB × Client :=
  if amount ≤ client.balance then
    let client' : Client :=
      { client with
        balance := client.balance - amount
        movements := client.movements ++ [(MvKind.withdraw, -amount)] }
    (WithdrawResult.ok,
     { clients := updateBalance db.clients client.id client'.balance
       movements := db.movements ++ [⟨client.id, MvKind.withdraw, -amount⟩] },
     client')
  else
    (WithdrawResult.insufficientFunds, db, client)

/-- `Bank.client_deposit`: unconditionally increment the snapshot balance,
append `"Deposited: +{amount}"` to the snapshot, persist the new balance and
insert a `'Deposit'` movement.  The source performs no validation of the
amount at all. -/
def client_deposit (db : DB) (client : Client) (amount : ℤ) : DB × Client :=
  let client' : Client :=
    { client with
      balance := client.balance + amount
      movements := client.movements ++ [(MvKind.deposit, amount)] }
  ({ clients := updateBalance db.clients client.id client'.balance
     movements := db.movements ++ [⟨client.id, MvKind.deposit, amount⟩] },
   client')

/-- Outcome of `Bank.client_transfer` (success, or one of the two printed
failure messages). -/
inductive TransferResult
  | ok
  | insufficientFunds
  | destinationNotFound
deriving DecidableEq, Repr

/-- `Bank.client_transfer`: look the destination up with `find_client` (a
fresh snapshot); if absent, print "Client to transfer to not found." and stop.
Otherwise, if `amount <= client_from.balance`: decrement the source snapshot,
increment the destination snapshot, append the two in-memory entries, then run
the two balance `UPDATE`s in that order (source first, destination second — so
with a self-transfer the second write clobbers the first) and insert a
`'Transfer Out'` then a `'Transfer In'` movement.  The destination snapshot is
discarded afterwards (the caller keeps only `client_from`). -/
def client_transfer (db : DB) (client_from : Client) (client_to_id : Nat)
    (amount : ℤ) : TransferResult × DB × Client :=
  match find_client db client_to_id with
  | none => (TransferResult.destinationNotFound, db, client_from)
  | some client_to =>
    if amount ≤ client_from.balance then
      let client_from' : Client :=
        { client_from with
          balance := client_from.balance - amount
          movements := client_from.movements ++ [(MvKind.transferOut, -amount)] }
      let client_to' : Client :=
        { client_to with
          balance := client_to.balance + amount
          movements := client_to.movements ++ [(MvKind.transferIn, amount)] }
      let clients1 := updateBalance db.clients client_from.id client_from'.balance
      let clients2 := updateBalance clients1 client_to.id client_to'.balance
      (TransferResult.ok,
       { clients := clients2
         movements := db.movements ++
           [⟨client_from.id, MvKind.transferOut, -amount⟩,
            ⟨client_to.id, MvKind.transferIn, amount⟩] },
       client_from')
    else
      (TransferResult.insufficientFunds, db, client_from)

/-- `Bank.client_check_balance`: prints the snapshot balance; a pure read. -/
def client_check_balance (client : Client) : ℤ :=
  client.balance

/-- `Bank.client_show_movements`: prints the snapshot's in-memory `movements`
list; a pure read of that list. -/
def client_show_movements (client : Client) : List (MvKind × ℤ) :=
  client.movements

/-- One choice from the client menu in `main` (`ClientActions`). -/
inductive ClientAction
  | withdraw (amount : ℤ)
  | deposit (amount : ℤ)
  | transfer (client_to_id : Nat) (amount : ℤ)
  | checkBalance
  | showMovements
deriving DecidableEq, Repr

/-- Dispatch of one client-menu choice in `main` onto the current snapshot
(`client_check_balance` and `client_show_movements` only print). -/
def runClientAction (db : DB) (client : Client) : ClientAction → DB × Client
  | ClientAction.withdraw a => (client_withdraw db client a).2
  | ClientAction.deposit a => client_deposit db client a
  | ClientAction.transfer t a => (client_transfer db client t a).2
  | ClientAction.checkBalance => (db, client)
  | ClientAction.showMovements => (db, client)

/-- The inner loop of `main`: a sequence of client-menu choices threaded over
the database and the single snapshot obtained at session start. -/
def runSession (db : DB) (client : Client) : List ClientAction → DB × Client
  | [] => (db, client)
  | act :: acts =>
    let r := runClientAction db client act
    runSession r.1 r.2 acts

/-- One choice from the top-level menu in `main` that touches the ledger
(`BankActions`; the listing/counting/exit choices do not mutate state). -/
inductive BankOp
  | createAccount (first_name : String) (occupation : Option String)
  | closeAccount (client_id : Nat)
  | clientSession (client_id : Nat) (actions : List ClientAction)
deriving DecidableEq, Repr

/-- Dispatch of one top-level menu choice in `main`: a client session first
looks the client up and does nothing when the id does not resolve. -/
def runOp (db : DB) : BankOp → DB
  | BankOp.createAccount n o => create_account db n o
  | BankOp.closeAccount i => close_account db i
  | BankOp.clientSession i acts =>
    match find_client db i with
    | none => db
    | some c => (runSession db c acts).1

/-- The outer loop of `main`: a sequence of top-level menu choices. -/
def runOps (db : DB) : List BankOp → DB
  | [] => db
  | op :: ops => runOps (runOp db op) ops

/-- The persisted balance of the (first) `clients` row with the given id. -/
def getBalance (db : DB) (client_id : Nat) : Option ℤ :=
  (db.clients.find? (fun a => a.id == client_id)).map (fun a => a.balance)

/-- All persisted movements of one account, in creation order. -/
def movementsOf (db : DB) (client_id : Nat) : List Movement :=
  db.movements.filter (fun m => m.client_id == client_id)

/-- Sum of the signed amounts of one account's persisted movements. -/
def movementSum (db : DB) (client_id : Nat) : ℤ :=
  ((movementsOf db client_id).map (fun m => m.amount)).sum

/-- The reconciliation invariant: every account's persisted balance equals the
sum of its persisted movements' signed amounts. -/
def reconciled (db : DB) : Prop :=
  ∀ a ∈ db.clients, a.balance = movementSum db a.id

/-- All persisted balances are non-negative. -/
def DB.nonneg (db : DB) : Prop :=
  ∀ a ∈ db.clients, 0 ≤ a.balance

/-- Is the amount of this client action positive (trivially true for the two
read-only actions)? -/
def ClientAction.posAmount : ClientAction → Bool
  | ClientAction.withdraw a => decide (0 < a)
  | ClientAction.deposit a => decide (0 < a)
  | ClientAction.transfer _ a => decide (0 < a)
  | ClientAction.checkBalance => true
  | ClientAction.showMovements => true

/-- Are all amounts appearing in this top-level operation positive? -/
def BankOp.posAmounts : BankOp → Bool
  | BankOp.createAccount _ _ => true
  | BankOp.closeAccount _ => true
  | BankOp.clientSession _ acts => acts.all ClientAction.posAmount

/-- Is this client action one of the two pure reads? -/
def ClientAction.isRead : ClientAction → Bool
  | ClientAction.checkBalance => true
  | ClientAction.showMovements => true
  | _ => false

/-- Is this top-level operation an account creation? -/
def BankOp.isCreate : BankOp → Bool
  | BankOp.createAccount _ _ => true
  | _ => false

/-- The balance of the first row with the given id in a list of `clients`
rows (`getBalance` unfolds to this). -/
def balanceIn (l : List Account) (j : Nat) : Option ℤ :=
  (l.find? (fun a => a.id == j)).map (fun a => a.balance)

theorem getBalance_eq_balanceIn (db : DB) (j : Nat) :
    getBalance db j = balanceIn db.clients j := rfl

theorem find?_updateBalance (l : List Account) (i j : Nat) (b : ℤ) :
    (updateBalance l i b).find? (fun a => a.id == j) =
    (l.find? (fun a => a.id == j)).map
      (fun a => if a.id == i then { a with balance := b } else a) := by
  unfold updateBalance
  rw [List.find?_map]
  have hp : ((fun a => a.id == j) ∘ fun a : Account =>
      if a.id == i then { a with balance := b } else a) = (fun a => a.id == j) := by
    funext a
    by_cases h : (a.id == i) = true <;> simp [Function.comp, h]
  rw [hp]

theorem balanceIn_updateBalance_self (l : List Account) (j : Nat) (b : ℤ) :
    balanceIn (updateBalance l j b) j = (balanceIn l j).map (fun _ => b) := by
  unfold balanceIn
  rw [find?_updateBalance]
  cases hf : l.find? (fun a => a.id == j) with
  | none => rfl
  | some a =>
    have ha : a.id = j := by simpa using List.find?_some hf
    simp [ha]

theorem balanceIn_updateBalance_ne (l : List Account) (i j : Nat) (b : ℤ)
    (h : i ≠ j) :
    balanceIn (updateBalance l i b) j = balanceIn l j := by
  unfold balanceIn
  rw [find?_updateBalance]
  cases hf : l.find? (fun a => a.id == j) with
  | none => rfl
  | some a =>
    have ha : a.id = j := by simpa using List.find?_some hf
    have hne : a.id ≠ i := by
      rw [ha]
      exact fun hc => h hc.symm
    simp [hne]

theorem find_client_id {db : DB} {i : Nat} {c : Client}
    (h : find_client db i = some c) : c.id = i := by
  unfold find_client at h
  cases hf : db.clients.find? (fun a => a.id == i) with
  | none => rw [hf] at h; exact absurd h (by simp)
  | some a =>
    rw [hf] at h
    have ha : a.id = i := by simpa using List.find?_some hf
    cases h
    exact ha

theorem find_client_getBalance {db : DB} {i : Nat} {c : Client}
    (h : find_client db i = some c) : getBalance db i = some c.balance := by
  unfold find_client at h
  unfold getBalance
  cases hf : db.clients.find? (fun a => a.id == i) with
  | none => rw [hf] at h; exact absurd h (by simp)
  | some a =>
    rw [hf] at h
    cases h
    rfl

theorem find_client_movements {db : DB} {i : Nat} {c : Client}
    (h : find_client db i = some c) : c.movements = [] := by
  unfold find_client at h
  cases hf : db.clients.find? (fun a => a.id == i) with
  | none => rw [hf] at h; exact absurd h (by simp)
  | some a => rw [hf] at h; cases h; rfl

theorem find_client_balance_nonneg {db : DB} {i : Nat} {c : Client}
    (hdb : db.nonneg) (h : find_client db i = some c) : 0 ≤ c.balance := by
  unfold find_client at h
  cases hf : db.clients.find? (fun a => a.id == i) with
  | none => rw [hf] at h; exact absurd h (by simp)
  | some a =>
    rw [hf] at h
    cases h
    exact hdb a (List.mem_of_find?_eq_some hf)

theorem nonneg_updateBalance {l : List Account} {b : ℤ} (i : Nat)
    (hl : ∀ a ∈ l, 0 ≤ a.balance) (hb : 0 ≤ b) :
    ∀ a ∈ updateBalance l i b, 0 ≤ a.balance := by
  intro a ha
  unfold updateBalance at ha
  obtain ⟨x, hx, rfl⟩ := List.mem_map.1 ha
  by_cases h : (x.id == i) = true
  · simp only [h, if_true]
    exact hb
  · simp only [h]
    simp only [Bool.false_eq_true, if_false]
    exact hl x hx

theorem updateBalance_ids (l : List Account) (i : Nat) (b : ℤ) :
    (updateBalance l i b).map (fun a => a.id) = l.map (fun a => a.id) := by
  unfold updateBalance
  rw [List.map_map]
  congr 1
  funext a
  by_cases h : (a.id == i) = true <;> simp [Function.comp, h]

theorem runClientAction_ids (db : DB) (c : Client) (act : ClientAction) :
    ((runClientAction db c act).1).clients.map (fun a => a.id) =
    db.clients.map (fun a => a.id) := by
  cases act with
  | withdraw a =>
    unfold runClientAction client_withdraw
    by_cases h : a ≤ c.balance <;> simp [h, updateBalance_ids]
  | deposit a =>
    unfold runClientAction client_deposit
    simp [updateBalance_ids]
  | transfer t a =>
    simp only [runClientAction, client_transfer]
    cases hf : find_client db t with
    | none => simp [hf]
    | some ct =>
      by_cases h : a ≤ c.balance
      · simp [hf, h, updateBalance_ids]
      · simp [hf, h]
  | checkBalance => rfl
  | showMovements => rfl

theorem runSession_ids (db : DB) (c : Client) (acts : List ClientAction) :
    ((runSession db c acts).1).clients.map (fun a => a.id) =
    db.clients.map (fun a => a.id) := by
  induction acts generalizing db c with
  | nil => rfl
  | cons a as ih =>
    show ((runSession (runClientAction db c a).1 (runClientAction db c a).2
      as).1).clients.map (fun a => a.id) = _
    rw [ih, runClientAction_ids]

theorem not_hasId_runOp (db : DB) (op : BankOp) (i : Nat)
    (hop : op.isCreate = false)
    (h : i ∉ db.clients.map (fun a => a.id)) :
    i ∉ (runOp db op).clients.map (fun a => a.id) := by
  cases op with
  | createAccount n o => exact absurd hop (by simp [BankOp.isCreate])
  | closeAccount j =>
    intro hmem
    apply h
    unfold runOp close_account at hmem
    rw [List.mem_map] at hmem ⊢
    obtain ⟨a, ha, rfl⟩ := hmem
    exact ⟨a, (List.mem_filter.1 ha).1, rfl⟩
  | clientSession j acts =>
    simp only [runOp]
    cases hf : find_client db j with
    | none => simp only [hf]; exact h
    | some c => simp only [hf]; rw [runSession_ids]; exact h

theorem not_hasId_runOps (db : DB) (ops : List BankOp) (i : Nat)
    (hops : ∀ op ∈ ops, op.isCreate = false)
    (h : i ∉ db.clients.map (fun a => a.id)) :
    i ∉ (runOps db ops).clients.map (fun a => a.id) := by
  induction ops generalizing db with
  | nil => exact h
  | cons op ops ih =>
    exact ih (runOp db op) (fun x hx => hops x (List.mem_cons_of_mem op hx))
      (not_hasId_runOp db op i (hops op (List.mem_cons_self op ops)) h)

theorem find_client_eq_none_of_not_hasId {db : DB} {i : Nat}
    (h : i ∉ db.clients.map (fun a => a.id)) : find_client db i = none := by
  unfold find_client
  have hf : db.clients.find? (fun a => a.id == i) = none := by
    rw [List.find?_eq_none]
    intro x hx hbeq
    exact h (List.mem_map.2 ⟨x, hx, by simpa using hbeq⟩)
  rw [hf]

theorem close_account_not_hasId (db : DB) (i : Nat) :
    i ∉ (close_account db i).clients.map (fun a => a.id) := by
  intro hmem
  unfold close_account at hmem
  rw [List.mem_map] at hmem
  obtain ⟨a, ha, rfl⟩ := hmem
  have := (List.mem_filter.1 ha).2
  simp at this

theorem runClientAction_nonneg (db : DB) (c : Client) (act : ClientAction)
    (hdb : db.nonneg) (hc : 0 ≤ c.balance) (hact : act.posAmount = true) :
    ((runClientAction db c act).1).nonneg ∧
      0 ≤ ((runClientAction db c act).2).balance := by
  cases act with
  | withdraw a =>
    have ha : (0:ℤ) < a := of_decide_eq_true hact
    simp only [runClientAction, client_withdraw]
    by_cases h : a ≤ c.balance
    · rw [if_pos h]
      refine ⟨?_, ?_⟩
      · intro x hx
        exact nonneg_updateBalance c.id hdb (by linarith) x hx
      · show (0:ℤ) ≤ c.balance - a
        linarith
    · rw [if_neg h]
      exact ⟨hdb, hc⟩
  | deposit a =>
    have ha : (0:ℤ) < a := of_decide_eq_true hact
    simp only [runClientAction, client_deposit]
    refine ⟨?_, ?_⟩
    · intro x hx
      exact nonneg_updateBalance c.id hdb (by linarith) x hx
    · show (0:ℤ) ≤ c.balance + a
      linarith
  | transfer t a =>
    have ha : (0:ℤ) < a := of_decide_eq_true hact
    simp only [runClientAction, client_transfer]
    cases hf : find_client db t with
    | none => simp only [hf]; exact ⟨hdb, hc⟩
    | some ct =>
      have hct : 0 ≤ ct.balance := find_client_balance_nonneg hdb hf
      by_cases h : a ≤ c.balance
      · simp only [hf, if_pos h]
        refine ⟨?_, ?_⟩
        · intro x hx
          refine nonneg_updateBalance ct.id ?_ (by linarith) x hx
          exact nonneg_updateBalance c.id hdb (by linarith)
        · show (0:ℤ) ≤ c.balance - a
          linarith
      · simp only [hf, if_neg h]
        exact ⟨hdb, hc⟩
  | checkBalance => exact ⟨hdb, hc⟩
  | showMovements => exact ⟨hdb, hc⟩

theorem runSession_nonneg (db : DB) (c : Client) (acts : List ClientAction)
    (hdb : db.nonneg) (hc : 0 ≤ c.balance)
    (hacts : acts.all ClientAction.posAmount = true) :
    ((runSession db c acts).1).nonneg ∧
      0 ≤ ((runSession db c acts).2).balance := by
  induction acts generalizing db c with
  | nil => exact ⟨hdb, hc⟩
  | cons a as ih =>
    rw [List.all_cons, Bool.and_eq_true] at hacts
    have h1 := runClientAction_nonneg db c a hdb hc hacts.1
    simp only [runSession]
    exact ih (runClientAction db c a).1 (runClientAction db c a).2 h1.1 h1.2 hacts.2

theorem runOp_nonneg (db : DB) (op : BankOp) (hdb : db.nonneg)
    (hop : op.posAmounts = true) : (runOp db op).nonneg := by
  cases op with
  | createAccount n o =>
    simp only [runOp, create_account]
    intro x hx
    rcases List.mem_append.1 hx with h | h
    · exact hdb x h
    · rw [List.mem_singleton] at h
      rw [h]
  | closeAccount j =>
    simp only [runOp, close_account]
    intro x hx
    exact hdb x (List.mem_filter.1 hx).1
  | clientSession j acts =>
    simp only [runOp]
    cases hf : find_client db j with
    | none => simp only [hf]; exact hdb
    | some c =>
      simp only [hf]
      have hc := find_client_balance_nonneg hdb hf
      exact (runSession_nonneg db c acts hdb hc hop).1

theorem runOps_nonneg (db : DB) (ops : List BankOp) (hdb : db.nonneg)
    (hops : ops.all BankOp.posAmounts = true) : (runOps db ops).nonneg := by
  induction ops generalizing db with
  | nil => exact hdb
  | cons op ops ih =>
    rw [List.all_cons, Bool.and_eq_true] at hops
    exact ih (runOp db op) (runOp_nonneg db op hdb hops.1) hops.2

/-- C1: the reconciliation invariant fails on the code.  Concretely: create an
account (it receives id 1), deposit 100 into it, then transfer 50 from the
account to itself.  The destination lookup inside `client_transfer` builds a
second snapshot of the same row, and the second balance `UPDATE` clobbers the
first, so the persisted balance ends at 150 while the recorded movements
(+100, -50, +50) sum to 100: the balance has drifted from the movement log. -/
theorem C1_reconciliation_violated :
    getBalance (runOps DB.empty
      [BankOp.createAccount "Alice" none,
       BankOp.clientSession 1 [ClientAction.deposit 100,
                               ClientAction.transfer 1 50]]) 1 = some 150 ∧
    movementSum (runOps DB.empty
      [BankOp.createAccount "Alice" none,
       BankOp.clientSession 1 [ClientAction.deposit 100,
                               ClientAction.transfer 1 50]]) 1 = 100 ∧
    ¬ reconciled (runOps DB.empty
      [BankOp.createAccount "Alice" none,
       BankOp.clientSession 1 [ClientAction.deposit 100,
                               ClientAction.transfer 1 50]]) := by
  refine ⟨by decide, by decide, ?_⟩
  simp only [reconciled]
  decide

/-- C2 counterexample: the claim quantifies over every withdraw/transfer
sequence, but the code never checks the sign of an amount.  Transferring -50
from account 1 (balance 0) to account 2 (balance 0) passes the
`amount <= balance` test and leaves account 2 with persisted balance -50. -/
theorem C2_counterexample :
    getBalance (runOps DB.empty
      [BankOp.createAccount "Alice" none, BankOp.createAccount "Bob" none,
       BankOp.clientSession 1 [ClientAction.transfer 2 (-50)]]) 2
      = some (-50) ∧ (-50 : ℤ) < 0 := by
  decide

/-- C2 (amended): restricted to operations whose amounts are positive — the
only restriction the counterexample forces — the invariant holds: starting
from a database whose persisted balances are all non-negative, any sequence
of engine operations with positive amounts leaves every persisted balance
non-negative. -/
theorem C2_balances_nonneg_for_positive_amounts (db : DB) (ops : List BankOp)
    (hdb : db.nonneg) (hops : ops.all BankOp.posAmounts = true) :
    (runOps db ops).nonneg :=
  runOps_nonneg db ops hdb hops

theorem C2_balances_nonneg_witness :
    (runOps DB.empty
      [BankOp.createAccount "Alice" none,
       BankOp.clientSession 1 [ClientAction.deposit 100,
                               ClientAction.withdraw 30]]).nonneg :=
  C2_balances_nonneg_for_positive_amounts DB.empty
    [BankOp.createAccount "Alice" none,
     BankOp.clientSession 1 [ClientAction.deposit 100, ClientAction.withdraw 30]]
    (by intro a ha; simp [DB.empty] at ha) (by decide)

/-- C5: the code has no InvalidAmount path at all.  Depositing the
non-positive amount -5 into account 1 (balance 0) is not rejected: it appends
a Deposit movement of -5 and persists balance -5 — an observable state change
where the claim requires a typed error and none.  (`client_withdraw` likewise
accepts amount 0 and appends a movement.) -/
theorem C5_no_invalid_amount_check :
    find_client (runOps DB.empty [BankOp.createAccount "Alice" none]) 1
      = some ⟨1, "Alice", 0, none, []⟩ ∧
    (client_deposit (runOps DB.empty [BankOp.createAccount "Alice" none])
        ⟨1, "Alice", 0, none, []⟩ (-5)).1.movements
      = [⟨1, MvKind.deposit, -5⟩] ∧
    getBalance (client_deposit (runOps DB.empty [BankOp.createAccount "Alice" none])
        ⟨1, "Alice", 0, none, []⟩ (-5)).1 1 = some (-5) ∧
    (client_withdraw (runOps DB.empty [BankOp.createAccount "Alice" none])
        ⟨1, "Alice", 0, none, []⟩ 0).1 = WithdrawResult.ok := by
  decide

/-- C6: when the destination id does not resolve, `client_transfer` reports
the not-found outcome and returns the database and the source snapshot
untouched: the source balance is unchanged and no movement is created on any
account. -/
theorem C6_transfer_destination_not_found (db : DB) (client_from : Client)
    (client_to_id : Nat) (amount : ℤ)
    (h : find_client db client_to_id = none) :
    client_transfer db client_from client_to_id amount
      = (TransferResult.destinationNotFound, db, client_from) := by
  unfold client_transfer
  rw [h]

theorem C6_transfer_destination_not_found_witness :
    client_transfer (runOps DB.empty [BankOp.createAccount "Alice" none])
        ⟨1, "Alice", 0, none, []⟩ 7 25
      = (TransferResult.destinationNotFound,
         runOps DB.empty [BankOp.createAccount "Alice" none],
         ⟨1, "Alice", 0, none, []⟩) :=
  C6_transfer_destination_not_found
    (runOps DB.empty [BankOp.createAccount "Alice" none])
    ⟨1, "Alice", 0, none, []⟩ 7 25 (by decide)

/-- C8: `show_movements` does not return the movements recorded before the
account was last looked up.  Concretely: deposit 100 into account 1 in one
session (the persisted movement log for account 1 then holds one Deposit of
+100), look account 1 up again — `find_client` builds the snapshot with an
empty in-memory movements list — and `client_show_movements` on that snapshot
returns the empty list, omitting the recorded movement. -/
theorem C8_show_movements_misses_persisted :
    movementsOf (runOps DB.empty
      [BankOp.createAccount "Alice" none,
       BankOp.clientSession 1 [ClientAction.deposit 100]]) 1
      = [⟨1, MvKind.deposit, 100⟩] ∧
    find_client (runOps DB.empty
      [BankOp.createAccount "Alice" none,
       BankOp.clientSession 1 [ClientAction.deposit 100]]) 1
      = some ⟨1, "Alice", 100, none, []⟩ ∧
    client_show_movements ⟨1, "Alice", 100, none, []⟩ = [] := by
  decide

/-- C9 counterexample: "every subsequent lookup reports NotFound" fails once
a later `create_account` runs.  SQLite assigns a new row one more than the
largest current id, so after closing account 2 (the largest), creating a new
account reassigns id 2, and the lookup of id 2 then succeeds (with the new
account) instead of reporting NotFound. -/
theorem C9_counterexample :
    find_client (runOps DB.empty
      [BankOp.createAccount "Alice" none, BankOp.createAccount "Bob" none,
       BankOp.closeAccount 2, BankOp.createAccount "Carol" none]) 2
      = some ⟨2, "Carol", 0, none, []⟩ := by
  decide

/-- C10: repeating `check_balance` and `show_movements` in any order and any
number of times mutates nothing: both map to pure reads, so a session made of
them returns the database and the snapshot exactly as they were. -/
theorem C10_reads_idempotent (db : DB) (client : Client)
    (acts : List ClientAction) (h : acts.all ClientAction.isRead = true) :
    runSession db client acts = (db, client) := by
  induction acts with
  | nil => rfl
  | cons a as ih =>
    rw [List.all_cons, Bool.and_eq_true] at h
    cases a with
    | checkBalance => simpa [runSession, runClientAction] using ih h.2
    | showMovements => simpa [runSession, runClientAction] using ih h.2
    | withdraw x => exact absurd h.1 (by simp [ClientAction.isRead])
    | deposit x => exact absurd h.1 (by simp [ClientAction.isRead])
    | transfer t x => exact absurd h.1 (by simp [ClientAction.isRead])

theorem C10_reads_idempotent_witness :
    runSession (runOps DB.empty [BankOp.createAccount "Alice" none])
        ⟨1, "Alice", 0, none, []⟩
        [ClientAction.checkBalance, ClientAction.showMovements,
         ClientAction.checkBalance]
      = (runOps DB.empty [BankOp.createAccount "Alice" none],
         ⟨1, "Alice", 0, none, []⟩) :=
  C10_reads_idempotent (runOps DB.empty [BankOp.createAccount "Alice" none])
    ⟨1, "Alice", 0, none, []⟩
    [ClientAction.checkBalance, ClientAction.showMovements,
     ClientAction.checkBalance] (by decide)

theorem client_transfer_ok {db : DB} {client_from : Client} {client_to_id : Nat}
    {amount : ℤ} {client_to : Client}
    (hf : find_client db client_to_id = some client_to)
    (hle : amount ≤ client_from.balance) :
    client_transfer db client_from client_to_id amount =
      (TransferResult.ok,
       { clients := updateBalance
           (updateBalance db.clients client_from.id (client_from.balance - amount))
           client_to.id (client_to.balance + amount)
         movements := db.movements ++
           [⟨client_from.id, MvKind.transferOut, -amount⟩,
            ⟨client_to.id, MvKind.transferIn, amount⟩] },
       { client_from with
         balance := client_from.balance - amount
         movements := client_from.movements ++ [(MvKind.transferOut, -amount)] }) := by
  unfold client_transfer
  simp only [hf]
  rw [if_pos hle]

theorem client_transfer_insufficient {db : DB} {client_from : Client}
    {client_to_id : Nat} {amount : ℤ} {client_to : Client}
    (hf : find_client db client_to_id = some client_to)
    (hgt : client_from.balance < amount) :
    client_transfer db client_from client_to_id amount =
      (TransferResult.insufficientFunds, db, client_from) := by
  unfold client_transfer
  simp only [hf]
  rw [if_neg (not_le.2 hgt)]

/-- C3 counterexample: for a self-transfer the claimed disjunction fails.
Account 1 has persisted balance 100 (after a deposit of 100); transferring 50
from the account to itself succeeds, appends the TransferOut/TransferIn pair,
and leaves the persisted balance at 150 — so the balances are not unchanged
(first branch fails) and the balance did not decrease by 50 (the success
branch requires balance 50 and balance 150 at once, impossible). -/
theorem C3_counterexample :
    (find_client (runOps DB.empty
      [BankOp.createAccount "Alice" none,
       BankOp.clientSession 1 [ClientAction.deposit 100]]) 1
      = some ⟨1, "Alice", 100, none, []⟩) ∧
    ¬ (getBalance (client_transfer (runOps DB.empty
          [BankOp.createAccount "Alice" none,
           BankOp.clientSession 1 [ClientAction.deposit 100]])
          ⟨1, "Alice", 100, none, []⟩ 1 50).2.1 1
        = getBalance (runOps DB.empty
          [BankOp.createAccount "Alice" none,
           BankOp.clientSession 1 [ClientAction.deposit 100]]) 1 ∧
       (client_transfer (runOps DB.empty
          [BankOp.createAccount "Alice" none,
           BankOp.clientSession 1 [ClientAction.deposit 100]])
          ⟨1, "Alice", 100, none, []⟩ 1 50).2.1.movements
        = (runOps DB.empty
          [BankOp.createAccount "Alice" none,
           BankOp.clientSession 1 [ClientAction.deposit 100]]).movements) ∧
    ¬ (getBalance (client_transfer (runOps DB.empty
          [BankOp.createAccount "Alice" none,
           BankOp.clientSession 1 [ClientAction.deposit 100]])
          ⟨1, "Alice", 100, none, []⟩ 1 50).2.1 1
        = some (100 - 50) ∧
       getBalance (client_transfer (runOps DB.empty
          [BankOp.createAccount "Alice" none,
           BankOp.clientSession 1 [ClientAction.deposit 100]])
          ⟨1, "Alice", 100, none, []⟩ 1 50).2.1 1
        = some (100 + 50)) := by
  decide

/-- C3 (amended): for a transfer between two distinct accounts — the only
restriction the self-transfer counterexample forces — the all-or-nothing
shape holds: with the source snapshot in sync with its stored balance and
source id distinct from the destination id, either the operation fails and
the database is returned untouched (both balances unchanged, zero movements
appended), or it succeeds, the source's persisted balance decreases by the
amount, the destination's increases by it, and exactly one TransferOut of
-amount on the source and one TransferIn of +amount on the destination are
appended; in every case the number of appended movements is zero or two,
never one. -/
theorem C3_transfer_shape (db : DB) (client_from : Client) (client_to_id : Nat)
    (amount : ℤ)
    (hsync : getBalance db client_from.id = some client_from.balance)
    (hne : client_from.id ≠ client_to_id) :
    ((client_transfer db client_from client_to_id amount).1 ≠ TransferResult.ok →
      (client_transfer db client_from client_to_id amount).2.1 = db) ∧
    ((client_transfer db client_from client_to_id amount).1 = TransferResult.ok →
      getBalance (client_transfer db client_from client_to_id amount).2.1
          client_from.id = some (client_from.balance - amount) ∧
      (∃ b, getBalance db client_to_id = some b ∧
        getBalance (client_transfer db client_from client_to_id amount).2.1
          client_to_id = some (b + amount)) ∧
      (client_transfer db client_from client_to_id amount).2.1.movements
        = db.movements ++
            [⟨client_from.id, MvKind.transferOut, -amount⟩,
             ⟨client_to_id, MvKind.transferIn, amount⟩]) ∧
    ((client_transfer db client_from client_to_id amount).2.1.movements.length
        = db.movements.length ∨
     (client_transfer db client_from client_to_id amount).2.1.movements.length
        = db.movements.length + 2) := by
  cases hf : find_client db client_to_id with
  | none =>
    rw [C6_transfer_destination_not_found db client_from client_to_id amount hf]
    exact ⟨fun _ => rfl, fun h => absurd h (by simp), Or.inl rfl⟩
  | some ct =>
    have hctid : ct.id = client_to_id := find_client_id hf
    have hctbal : getBalance db client_to_id = some ct.balance :=
      find_client_getBalance hf
    by_cases hle : amount ≤ client_from.balance
    · rw [client_transfer_ok hf hle]
      refine ⟨fun h => absurd rfl h, fun _ => ⟨?_, ⟨ct.balance, hctbal, ?_⟩, ?_⟩,
        Or.inr (by simp)⟩
      · rw [getBalance_eq_balanceIn]
        show balanceIn (updateBalance (updateBalance db.clients client_from.id
          (client_from.balance - amount)) ct.id (ct.balance + amount))
          client_from.id = _
        rw [hctid, balanceIn_updateBalance_ne _ _ _ _ (fun hc => hne hc.symm),
          balanceIn_updateBalance_self]
        rw [getBalance_eq_balanceIn] at hsync
        rw [hsync]
        rfl
      · rw [getBalance_eq_balanceIn]
        show balanceIn (updateBalance (updateBalance db.clients client_from.id
          (client_from.balance - amount)) ct.id (ct.balance + amount))
          client_to_id = _
        rw [hctid, balanceIn_updateBalance_self,
          balanceIn_updateBalance_ne _ _ _ _ hne]
        rw [getBalance_eq_balanceIn] at hctbal
        rw [hctbal]
        rfl
      · show db.movements ++ [⟨client_from.id, MvKind.transferOut, -amount⟩,
          ⟨ct.id, MvKind.transferIn, amount⟩] = _
        rw [hctid]
    · rw [client_transfer_insufficient hf (not_le.1 hle)]
      exact ⟨fun _ => rfl, fun h => absurd h (by simp), Or.inl rfl⟩

theorem C3_transfer_shape_witness :
    getBalance (runOps DB.empty
        [BankOp.createAccount "Alice" none, BankOp.createAccount "Bob" none,
         BankOp.clientSession 1 [ClientAction.deposit 50]]) 1 = some 50 ∧
    ((client_transfer (runOps DB.empty
        [BankOp.createAccount "Alice" none, BankOp.createAccount "Bob" none,
         BankOp.clientSession 1 [ClientAction.deposit 50]])
        ⟨1, "Alice", 50, none, []⟩ 2 20).1 = TransferResult.ok →
      getBalance (client_transfer (runOps DB.empty
        [BankOp.createAccount "Alice" none, BankOp.createAccount "Bob" none,
         BankOp.clientSession 1 [ClientAction.deposit 50]])
        ⟨1, "Alice", 50, none, []⟩ 2 20).2.1 1 = some (50 - 20) ∧
      (∃ b, getBalance (runOps DB.empty
        [BankOp.createAccount "Alice" none, BankOp.createAccount "Bob" none,
         BankOp.clientSession 1 [ClientAction.deposit 50]]) 2 = some b ∧
        getBalance (client_transfer (runOps DB.empty
          [BankOp.createAccount "Alice" none, BankOp.createAccount "Bob" none,
           BankOp.clientSession 1 [ClientAction.deposit 50]])
          ⟨1, "Alice", 50, none, []⟩ 2 20).2.1 2 = some (b + 20)) ∧
      (client_transfer (runOps DB.empty
        [BankOp.createAccount "Alice" none, BankOp.createAccount "Bob" none,
         BankOp.clientSession 1 [ClientAction.deposit 50]])
        ⟨1, "Alice", 50, none, []⟩ 2 20).2.1.movements
        = (runOps DB.empty
        [BankOp.createAccount "Alice" none, BankOp.createAccount "Bob" none,
         BankOp.clientSession 1 [ClientAction.deposit 50]]).movements ++
            [⟨1, MvKind.transferOut, -20⟩, ⟨2, MvKind.transferIn, 20⟩]) :=
  ⟨by decide,
   (C3_transfer_shape (runOps DB.empty
      [BankOp.createAccount "Alice" none, BankOp.createAccount "Bob" none,
       BankOp.clientSession 1 [ClientAction.deposit 50]])
      ⟨1, "Alice", 50, none, []⟩ 2 20 (by decide) (by decide)).2.1⟩

/-- C4: the withdraw contract holds.  With the snapshot in sync with the
stored balance: if the amount exceeds the balance the operation reports
insufficient funds and performs no mutation (database and snapshot are
returned untouched); if 0 < amount ≤ balance it succeeds, the persisted
balance decreases by the amount, exactly one Withdraw movement of -amount is
appended, and the snapshot balance decreases likewise. -/
theorem C4_withdraw_contract (db : DB) (client : Client) (amount : ℤ)
    (hsync : getBalance db client.id = some client.balance) :
    (client.balance < amount →
      client_withdraw db client amount
        = (WithdrawResult.insufficientFunds, db, client)) ∧
    (0 < amount → amount ≤ client.balance →
      (client_withdraw db client amount).1 = WithdrawResult.ok ∧
      getBalance (client_withdraw db client amount).2.1 client.id
        = some (client.balance - amount) ∧
      (client_withdraw db client amount).2.1.movements
        = db.movements ++ [⟨client.id, MvKind.withdraw, -amount⟩] ∧
      (client_withdraw db client amount).2.2.balance
        = client.balance - amount) := by
  constructor
  · intro h
    unfold client_withdraw
    rw [if_neg (not_le.2 h)]
  · intro _ hle
    unfold client_withdraw
    rw [if_pos hle]
    refine ⟨rfl, ?_, rfl, rfl⟩
    rw [getBalance_eq_balanceIn]
    show balanceIn (updateBalance db.clients client.id
      (client.balance - amount)) client.id = _
    rw [balanceIn_updateBalance_self]
    rw [getBalance_eq_balanceIn] at hsync
    rw [hsync]
    rfl

theorem C4_withdraw_contract_witness :
    getBalance (client_withdraw ⟨[⟨1, "Alice", 100, none⟩],
        [⟨1, MvKind.deposit, 100⟩]⟩ ⟨1, "Alice", 100, none, []⟩ 30).2.1 1
      = some 70 ∧
    client_withdraw ⟨[⟨1, "Alice", 70, none⟩],
        [⟨1, MvKind.deposit, 100⟩, ⟨1, MvKind.withdraw, -30⟩]⟩
        ⟨1, "Alice", 70, none, []⟩ 1000
      = (WithdrawResult.insufficientFunds,
         ⟨[⟨1, "Alice", 70, none⟩],
          [⟨1, MvKind.deposit, 100⟩, ⟨1, MvKind.withdraw, -30⟩]⟩,
         ⟨1, "Alice", 70, none, []⟩) :=
  ⟨((C4_withdraw_contract ⟨[⟨1, "Alice", 100, none⟩], [⟨1, MvKind.deposit, 100⟩]⟩
      ⟨1, "Alice", 100, none, []⟩ 30 (by decide)).2 (by decide) (by decide)).2.1,
   (C4_withdraw_contract ⟨[⟨1, "Alice", 70, none⟩],
      [⟨1, MvKind.deposit, 100⟩, ⟨1, MvKind.withdraw, -30⟩]⟩
      ⟨1, "Alice", 70, none, []⟩ 1000 (by decide)).1 (by decide)⟩

/-- C7: self-transfer.  If the snapshot is in sync with the persisted balance
b of its own row and amount ≤ b, transferring to the account's own id
succeeds, the persisted balance ends at b + amount (the destination is a
second snapshot of the same row and the second balance UPDATE overwrites the
first), and exactly one TransferOut of -amount and one TransferIn of +amount
are appended on the same account; the two appended signed amounts sum to
zero. -/
theorem C7_self_transfer (db : DB) (client : Client) (amount : ℤ)
    (hsync : getBalance db client.id = some client.balance)
    (hle : amount ≤ client.balance) :
    (client_transfer db client client.id amount).1 = TransferResult.ok ∧
    getBalance (client_transfer db client client.id amount).2.1 client.id
      = some (client.balance + amount) ∧
    (client_transfer db client client.id amount).2.1.movements
      = db.movements ++ [⟨client.id, MvKind.transferOut, -amount⟩,
                         ⟨client.id, MvKind.transferIn, amount⟩] ∧
    (-amount) + amount = 0 := by
  rw [getBalance_eq_balanceIn] at hsync
  unfold balanceIn at hsync
  cases hf : db.clients.find? (fun a => a.id == client.id) with
  | none => rw [hf] at hsync; exact absurd hsync (by simp)
  | some a =>
    rw [hf] at hsync
    have hab : a.balance = client.balance := by simpa using hsync
    have haid : a.id = client.id := by simpa using List.find?_some hf
    have hfc : find_client db client.id
        = some ⟨a.id, a.first_name, a.balance, a.occupation, []⟩ := by
      unfold find_client; rw [hf]
    rw [client_transfer_ok hfc hle]
    refine ⟨rfl, ?_, ?_, by ring⟩
    · rw [getBalance_eq_balanceIn]
      show balanceIn (updateBalance (updateBalance db.clients client.id
        (client.balance - amount)) a.id (a.balance + amount)) client.id = _
      rw [haid, hab, balanceIn_updateBalance_self, balanceIn_updateBalance_self]
      unfold balanceIn
      rw [hf]
      rfl
    · show db.movements ++ [⟨client.id, MvKind.transferOut, -amount⟩,
        ⟨a.id, MvKind.transferIn, amount⟩] = _
      rw [haid]

theorem C7_self_transfer_witness :
    (client_transfer ⟨[⟨1, "Alice", 100, none⟩], [⟨1, MvKind.deposit, 100⟩]⟩
        ⟨1, "Alice", 100, none, []⟩ 1 50).1 = TransferResult.ok ∧
    getBalance (client_transfer ⟨[⟨1, "Alice", 100, none⟩],
        [⟨1, MvKind.deposit, 100⟩]⟩ ⟨1, "Alice", 100, none, []⟩ 1 50).2.1 1
      = some 150 ∧
    (client_transfer ⟨[⟨1, "Alice", 100, none⟩], [⟨1, MvKind.deposit, 100⟩]⟩
        ⟨1, "Alice", 100, none, []⟩ 1 50).2.1.movements
      = [⟨1, MvKind.deposit, 100⟩] ++ [⟨1, MvKind.transferOut, -50⟩,
                                       ⟨1, MvKind.transferIn, 50⟩] ∧
    (-(50:ℤ)) + 50 = 0 :=
  C7_self_transfer ⟨[⟨1, "Alice", 100, none⟩], [⟨1, MvKind.deposit, 100⟩]⟩
    ⟨1, "Alice", 100, none, []⟩ 50 (by decide) (by decide)

/-- C9 (amended): closing an existing account removes its `clients` row and
every movement it owns, and every subsequent lookup of the identifier reports
NotFound as long as no later `create_account` runs; the restriction is forced
because SQLite assigns a new row the largest current id plus one, so a later
creation can reassign the closed identifier (see the counterexample). -/
theorem C9_close_account (db : DB) (client_id : Nat) (ops : List BankOp)
    (_hex : (find_client db client_id).isSome = true)
    (hops : ∀ op ∈ ops, op.isCreate = false) :
    find_client (close_account db client_id) client_id = none ∧
    movementsOf (close_account db client_id) client_id = [] ∧
    find_client (runOps (close_account db client_id) ops) client_id = none := by
  have hnot := close_account_not_hasId db client_id
  refine ⟨find_client_eq_none_of_not_hasId hnot, ?_,
    find_client_eq_none_of_not_hasId
      (not_hasId_runOps (close_account db client_id) ops client_id hops hnot)⟩
  unfold movementsOf close_account
  rw [List.filter_filter]
  rw [List.filter_eq_nil_iff]
  intro m hm
  simp

theorem C9_close_account_witness :
    find_client (close_account (runOps DB.empty
      [BankOp.createAccount "Alice" none, BankOp.createAccount "Bob" none,
       BankOp.clientSession 2 [ClientAction.deposit 10]]) 2) 2 = none ∧
    movementsOf (close_account (runOps DB.empty
      [BankOp.createAccount "Alice" none, BankOp.createAccount "Bob" none,
       BankOp.clientSession 2 [ClientAction.deposit 10]]) 2) 2 = [] ∧
    find_client (runOps (close_account (runOps DB.empty
      [BankOp.createAccount "Alice" none, BankOp.createAccount "Bob" none,
       BankOp.clientSession 2 [ClientAction.deposit 10]]) 2)
      [BankOp.clientSession 1 [ClientAction.deposit 5],
       BankOp.closeAccount 3]) 2 = none :=
  C9_close_account (runOps DB.empty
      [BankOp.createAccount "Alice" none, BankOp.createAccount "Bob" none,
       BankOp.clientSession 2 [ClientAction.deposit 10]]) 2
    [BankOp.clientSession 1 [ClientAction.deposit 5], BankOp.closeAccount 3]
    (by decide) (by decide)
